import Mathlib

/-!
# Verification of the stress-ng `goto` stressor (src/stress-goto.c)

Shallow embedding of the branch-prediction microbenchmark: jump-table
construction, the indirect-jump pass loop with its sampled counters, the
post-run consistency verifier, the rate metric, and the direction option
parser.  Machine `uint64_t` arithmetic is modelled on `Nat` with explicit
`% 2^64` where wraparound matters.
-/

set_option autoImplicit false

namespace StressGoto

/-- `#define MAX_LABELS (0x400)` -/
def MAX_LABELS : Nat := 0x400

/-- `#define STRESS_GOTO_FORWARD (1)` -/
def STRESS_GOTO_FORWARD : Nat := 1

/-- `#define STRESS_GOTO_BACKWARD (2)` -/
def STRESS_GOTO_BACKWARD : Nat := 2

/-- `#define STRESS_GOTO_RANDOM (3)` -/
def STRESS_GOTO_RANDOM : Nat := 3

/-- C `EXIT_SUCCESS` -/
def EXIT_SUCCESS : Nat := 0

/-- C `EXIT_FAILURE` -/
def EXIT_FAILURE : Nat := 1

/-- Number of values of a `uint64_t`. -/
def UINT64_CARD : Nat := 2 ^ 64

/-- Contents of `labels_forward` after the builder loop
(`labels_forward[i] = default_labels[(i + 1) % MAX_LABELS]`, stress-goto.c:250),
read as the label index entry `i` jumps to, parameterized by the table size. -/
def forwardTable (size : Nat) : Nat → Nat := fun i => (i + 1) % size

/-- Contents of `labels_backward` after the builder loop
(`labels_backward[i] = default_labels[(MAX_LABELS + i - 1) % MAX_LABELS]`,
stress-goto.c:251), parameterized by the table size. -/
def backwardTable (size : Nat) : Nat → Nat := fun i => (size + i - 1) % size

/-- The forward jump table built with `size = MAX_LABELS`. -/
def labels_forward : Nat → Nat := forwardTable MAX_LABELS

/-- The backward jump table built with `size = MAX_LABELS`. -/
def labels_backward : Nat → Nat := backwardTable MAX_LABELS

/-- `counters[k]++` on the 16-entry sampled counter array
(`static uint64_t counters[MAX_LABELS >> 6]`, stress-goto.c:244). -/
def bump (cs : List Nat) (k : Nat) : List Nat :=
  cs.set k (cs.getD k 0 + 1)

/-- The chain of computed gotos inside one pass.  Control sits at label `n`;
the `G(n)` macro (stress-goto.c:69-74) bumps `counters[n >> 6]` when
`(n & 0x3f) == 0` and jumps to `labels[n]`.  Reaching label `0` returns to the
loop head `L0x000`, ending the pass.  The C chain has no step bound; the
explicit `fuel` argument makes the recursion structural, and for the two
tables actually built a pass reaches label `0` within `MAX_LABELS` steps, so
`fuel = MAX_LABELS` reproduces the C control flow exactly. -/
def gotoWalk (labels : Nat → Nat) : Nat → List Nat → Nat → List Nat
  | 0, cs, _ => cs
  | fuel + 1, cs, n =>
    if n = 0 then cs
    else
      gotoWalk labels fuel
        (if n &&& 0x3f = 0 then bump cs (n >>> 6) else cs) (labels n)

/-- One started pass: at the loop head `counters[0]++` (stress-goto.c:279)
followed by `goto *labels[0]` (stress-goto.c:280) and the goto chain back to
the loop head. -/
def gotoPass (labels : Nat → Nat) (cs : List Nat) : List Nat :=
  gotoWalk labels MAX_LABELS (bump cs 0) (labels 0)

/-- Result of the run loop: the 16 sampled counters, the bogo-op (pass)
counter, and the table used by each started pass in order (the value of the
C `labels` pointer during that pass). -/
structure RunResult where
  counters : List Nat
  bogo : Nat
  tableTrace : List (Nat → Nat)

/-- The `for (;;)` run loop (stress-goto.c:272-425).  Each iteration polls
`stress_continue` (one Bool consumed from `conts`; an exhausted list stops the
observation like a `false` poll), re-selects the active table from one
`stress_mwc1()` bit when the direction is random (`bits` is the stream of
drawn bits, indexed by the pass number), increments the bogo counter and
`counters[0]`, and runs the goto chain of the pass. -/
def gotoLoop (goto_direction : Nat) (bits : Nat → Bool) :
    List Bool → List Nat → Nat → (Nat → Nat) → RunResult
  | [], cs, bogo, _ => ⟨cs, bogo, []⟩
  | c :: rest, cs, bogo, labels =>
    if c then
      let labels' :=
        if goto_direction = STRESS_GOTO_RANDOM then
          (if bits bogo then labels_backward else labels_forward)
        else labels
      let r := gotoLoop goto_direction bits rest (gotoPass labels' cs) (bogo + 1) labels'
      ⟨r.counters, r.bogo, labels' :: r.tableTrace⟩
    else ⟨cs, bogo, []⟩

/-- The `labels` pointer entering the run loop: initialized to
`labels_forward` (stress-goto.c:247) and then set by the
`switch (goto_direction)` (stress-goto.c:259-269). -/
def initialLabels (goto_direction : Nat) : Nat → Nat :=
  if goto_direction = STRESS_GOTO_FORWARD then labels_forward
  else if goto_direction = STRESS_GOTO_BACKWARD then labels_backward
  else if goto_direction = STRESS_GOTO_RANDOM then labels_forward
  else labels_forward

/-- The measured part of `stress_goto`: counters zero-initialized
(`static uint64_t counters[16]`), bogo counter starting at 0, and the run
loop. -/
def stress_goto_run (goto_direction : Nat) (bits : Nat → Bool)
    (conts : List Bool) : RunResult :=
  gotoLoop goto_direction bits conts (List.replicate 16 0) 0
    (initialLabels goto_direction)

/-- One `pr_fail` report of the sanity check (stress-goto.c:438-440):
the sampled label index `i * 64`, the observed counter, and the inclusive
expected bounds. -/
structure Violation where
  index : Nat
  observed : Nat
  expectedLow : Nat
  expectedHigh : Nat
deriving DecidableEq

/-- The sanity check loop (stress-goto.c:428-443).  `lo = bogo_counter - 1`
and `hi = bogo_counter + 1` are `uint64_t`, embedded as
`(bogo + 2^64 - 1) % 2^64` and `(bogo + 1) % 2^64`; every counter `i` in
`[0,16)` with `counters[i] < lo || counters[i] > hi` produces one report and
the loop keeps going. -/
def verifyCounters (counters : List Nat) (bogo_counter : Nat) : List Violation :=
  let lo := (bogo_counter + (UINT64_CARD - 1)) % UINT64_CARD
  let hi := (bogo_counter + 1) % UINT64_CARD
  (List.range 16).filterMap (fun i =>
    let c := counters.getD i 0
    if c < lo || hi < c then some ⟨i * 64, c, lo, hi⟩ else none)

/-- The exit code of the run: `rc` starts at `EXIT_SUCCESS` and any violation
sets it to `EXIT_FAILURE` (stress-goto.c:94, 441), so it is failure exactly
when the violation list is non-empty. -/
def runVerdict (counters : List Nat) (bogo_counter : Nat) : Nat :=
  if verifyCounters counters bogo_counter = [] then EXIT_SUCCESS else EXIT_FAILURE

/-- `rate = (duration > 0.0) ? (1024.0 * bogo) / duration : 0.0`
(stress-goto.c:446), with C doubles modelled as rationals. -/
def gotoRate (bogo_counter : Nat) (duration : ℚ) : ℚ :=
  if 0 < duration then (1024 * (bogo_counter : ℚ)) / duration else 0

/-- One emitted metric: name, value, and whether it is tagged
`STRESS_HARMONIC_MEAN`. -/
structure Metric where
  name : String
  value : ℚ
  harmonic_mean : Bool
deriving DecidableEq

/-- The single metric emission
`stress_metrics_set(args, 0, "million gotos per sec", rate / 1000000.0,
STRESS_HARMONIC_MEAN)` (stress-goto.c:447-448). -/
def gotoMetric (bogo_counter : Nat) (duration : ℚ) : Metric :=
  ⟨"million gotos per sec", gotoRate bogo_counter duration / 1000000, true⟩

/-- Everything `stress_goto` reports after the loop exits: the violation list,
the exit code, and the metric — the metric is emitted unconditionally
(stress-goto.c:445-448). -/
structure RunReport where
  violations : List Violation
  rc : Nat
  metric : Metric

/-- The post-loop tail of `stress_goto` (stress-goto.c:428-452). -/
def finishRun (counters : List Nat) (bogo_counter : Nat) (duration : ℚ) :
    RunReport :=
  ⟨verifyCounters counters bogo_counter,
   runVerdict counters bogo_counter,
   gotoMetric bogo_counter duration⟩

/-- The option table `stress_goto_direction[]` (stress-goto.c:40-44). -/
def stress_goto_direction_options : List (String × Nat) :=
  [("forward", STRESS_GOTO_FORWARD),
   ("backward", STRESS_GOTO_BACKWARD),
   ("random", STRESS_GOTO_RANDOM)]

/-- Outcome of `stress_set_goto_direction`: either the direction value stored
via `stress_set_setting`, or the error path that prints the list of valid
option tokens and returns `-1`. -/
inductive SetDirectionResult where
  | ok (direction : Nat)
  | err (valid_options : List String)
deriving DecidableEq

/-- `stress_set_goto_direction` (stress-goto.c:36-57): linear scan of the
option table with `strcmp`; on the first match the direction is stored and
the call succeeds, otherwise the error message enumerating the table's
tokens is printed and `-1` is returned. -/
def stress_set_goto_direction (opts : String) : SetDirectionResult :=
  match stress_goto_direction_options.find? (fun p => p.1 == opts) with
  | some p => .ok p.2
  | none => .err (stress_goto_direction_options.map Prod.fst)

/-- `goto_direction = STRESS_GOTO_RANDOM; (void)stress_get_setting(...)`
(stress-goto.c:254-255).  `stress_get_setting` is not part of the supplied
sources; modelled from the spec: it overwrites `goto_direction` only when a
stored `"goto-direction"` setting exists ("Default when unset: Random"). -/
def effectiveDirection (stored : Option Nat) : Nat :=
  match stored with
  | some d => d
  | none => STRESS_GOTO_RANDOM

/-- Modelled from the spec: the stress-ng driver (not part of the supplied
sources) invokes the stressor run only when option parsing succeeded — "a
configuration error short-circuits directly from `Idle` to a terminal failed
state without ever reaching `Running`". -/
def driverAttempt (opts : String) (bits : Nat → Bool) (conts : List Bool) :
    Option RunResult :=
  match stress_set_goto_direction opts with
  | .ok d => some (stress_goto_run (effectiveDirection (some d)) bits conts)
  | .err _ => none

/-- `k`-fold iteration of a jump table from a start index. -/
def iterTable (t : Nat → Nat) : Nat → Nat → Nat
  | 0, s => s
  | k + 1, s => iterTable t k (t s)

/-- The first `n` indices visited when following table `t` from start `s`. -/
def tableOrbit (t : Nat → Nat) (n : Nat) (s : Nat) : List Nat :=
  (List.range n).map (fun k => iterTable t k s)

end StressGoto
namespace StressGoto

set_option maxRecDepth 100000

theorem replicate_getD (n k b : Nat) :
    (List.replicate n b).getD k 0 = if k < n then b else 0 := by
  induction n generalizing k with
  | zero => simp
  | succ m ih =>
    cases k with
    | zero => simp [List.replicate]
    | succ j => simpa [List.replicate] using ih j

theorem bump_length (cs : List Nat) (j : Nat) : (bump cs j).length = cs.length := by
  simp [bump]

theorem bump_getD (cs : List Nat) (j k : Nat) :
    (bump cs j).getD k 0 = cs.getD k 0 + (if j = k ∧ j < cs.length then 1 else 0) := by
  unfold bump
  rcases Nat.lt_or_ge k cs.length with hk | hk
  · rw [List.getD_eq_getElem _ _ (by simpa using hk), List.getD_eq_getElem _ _ hk]
    by_cases h : j = k
    · subst h
      by_cases hj : j < cs.length
      · simp [List.getElem_set, hj, List.getD_eq_getElem _ _ hj]
      · omega
    · simp [List.getElem_set, h]
  · rw [List.getD_eq_default _ _ (by simpa using hk), List.getD_eq_default _ _ hk]
    have : ¬(j = k ∧ j < cs.length) := by omega
    simp [this]

theorem gotoWalk_length (t : Nat → Nat) (fuel : Nat) :
    ∀ (cs : List Nat) (n : Nat), (gotoWalk t fuel cs n).length = cs.length := by
  induction fuel with
  | zero => intro cs n; simp [gotoWalk]
  | succ f ih =>
    intro cs n
    unfold gotoWalk
    by_cases hn : n = 0
    · simp [hn]
    · simp only [hn, if_false]
      by_cases hb : n &&& 0x3f = 0
      · simp [hb, ih, bump_length]
      · simp [hb, ih]

theorem gotoWalk_getD_add (t : Nat → Nat) (fuel : Nat) :
    ∀ (cs : List Nat) (n k : Nat), cs.length = 16 →
      (gotoWalk t fuel cs n).getD k 0 =
        cs.getD k 0 + (gotoWalk t fuel (List.replicate 16 0) n).getD k 0 := by
  induction fuel with
  | zero =>
    intro cs n k hlen
    unfold gotoWalk
    rw [replicate_getD]
    split <;> omega
  | succ f ih =>
    intro cs n k hlen
    unfold gotoWalk
    by_cases hn : n = 0
    · rw [if_pos hn, if_pos hn, replicate_getD]
      split <;> omega
    · rw [if_neg hn, if_neg hn]
      by_cases hb : n &&& 0x3f = 0
      · rw [if_pos hb, if_pos hb]
        rw [ih (bump cs (n >>> 6)) (t n) k (by rw [bump_length]; exact hlen),
            ih (bump (List.replicate 16 0) (n >>> 6)) (t n) k
              (by rw [bump_length]; simp)]
        rw [bump_getD, bump_getD]
        rw [hlen, List.length_replicate, replicate_getD]
        split_ifs <;> omega
      · rw [if_neg hb, if_neg hb]
        exact ih cs (t n) k hlen

theorem forward_hits :
    ∀ k < 16, (gotoWalk labels_forward MAX_LABELS (List.replicate 16 0)
      (labels_forward 0)).getD k 0 = if k = 0 then 0 else 1 := by decide

theorem backward_hits :
    ∀ k < 16, (gotoWalk labels_backward MAX_LABELS (List.replicate 16 0)
      (labels_backward 0)).getD k 0 = if k = 0 then 0 else 1 := by decide

theorem gotoPass_replicate (t : Nat → Nat)
    (ht : t = labels_forward ∨ t = labels_backward) (b : Nat) :
    gotoPass t (List.replicate 16 b) = List.replicate 16 (b + 1) := by
  have hhits : ∀ k < 16, (gotoWalk t MAX_LABELS (List.replicate 16 0)
      (t 0)).getD k 0 = if k = 0 then 0 else 1 := by
    rcases ht with h | h <;> rw [h]
    · exact forward_hits
    · exact backward_hits
  have hlen : (gotoPass t (List.replicate 16 b)).length = 16 := by
    unfold gotoPass
    rw [gotoWalk_length, bump_length, List.length_replicate]
  apply List.ext_getElem (by rw [hlen, List.length_replicate])
  intro i h1 h2
  rw [← List.getD_eq_getElem _ 0 h1, ← List.getD_eq_getElem _ 0 h2]
  have hi : i < 16 := by rw [hlen] at h1; exact h1
  unfold gotoPass
  rw [gotoWalk_getD_add t MAX_LABELS _ _ i (by rw [bump_length, List.length_replicate]),
      bump_getD, hhits i hi, replicate_getD, replicate_getD, List.length_replicate]
  split_ifs <;> omega

theorem gotoLoop_nil (dir : Nat) (bits : Nat → Bool) (cs : List Nat) (b : Nat)
    (labels : Nat → Nat) : gotoLoop dir bits [] cs b labels = ⟨cs, b, []⟩ := rfl

theorem gotoLoop_cons_false (dir : Nat) (bits : Nat → Bool) (rest : List Bool)
    (cs : List Nat) (b : Nat) (labels : Nat → Nat) :
    gotoLoop dir bits (false :: rest) cs b labels = ⟨cs, b, []⟩ := rfl

theorem gotoLoop_cons_true (dir : Nat) (bits : Nat → Bool) (rest : List Bool)
    (cs : List Nat) (b : Nat) (labels : Nat → Nat) :
    gotoLoop dir bits (true :: rest) cs b labels =
      ⟨(gotoLoop dir bits rest
          (gotoPass (if dir = STRESS_GOTO_RANDOM then
              (if bits b then labels_backward else labels_forward) else labels) cs)
          (b + 1)
          (if dir = STRESS_GOTO_RANDOM then
              (if bits b then labels_backward else labels_forward) else labels)).counters,
       (gotoLoop dir bits rest
          (gotoPass (if dir = STRESS_GOTO_RANDOM then
              (if bits b then labels_backward else labels_forward) else labels) cs)
          (b + 1)
          (if dir = STRESS_GOTO_RANDOM then
              (if bits b then labels_backward else labels_forward) else labels)).bogo,
       (if dir = STRESS_GOTO_RANDOM then
              (if bits b then labels_backward else labels_forward) else labels) ::
       (gotoLoop dir bits rest
          (gotoPass (if dir = STRESS_GOTO_RANDOM then
              (if bits b then labels_backward else labels_forward) else labels) cs)
          (b + 1)
          (if dir = STRESS_GOTO_RANDOM then
              (if bits b then labels_backward else labels_forward) else labels)).tableTrace⟩ := rfl

theorem selected_labels_cases (dir : Nat) (bits : Nat → Bool) (b : Nat)
    (labels : Nat → Nat) (hl : labels = labels_forward ∨ labels = labels_backward) :
    (if dir = STRESS_GOTO_RANDOM then
        (if bits b then labels_backward else labels_forward) else labels) = labels_forward ∨
    (if dir = STRESS_GOTO_RANDOM then
        (if bits b then labels_backward else labels_forward) else labels) = labels_backward := by
  by_cases hd : dir = STRESS_GOTO_RANDOM
  · by_cases hb : bits b = true
    · right; simp [hd, hb]
    · left; simp [hd, hb]
  · simpa [hd] using hl

theorem initialLabels_cases (dir : Nat) :
    initialLabels dir = labels_forward ∨ initialLabels dir = labels_backward := by
  unfold initialLabels
  split_ifs <;> simp

theorem gotoLoop_counters (dir : Nat) (bits : Nat → Bool) (conts : List Bool) :
    ∀ (b : Nat) (labels : Nat → Nat),
      labels = labels_forward ∨ labels = labels_backward →
      (gotoLoop dir bits conts (List.replicate 16 b) b labels).counters =
        List.replicate 16 ((gotoLoop dir bits conts (List.replicate 16 b) b labels).bogo) := by
  induction conts with
  | nil => intro b labels _; rw [gotoLoop_nil]
  | cons c rest ih =>
    intro b labels hl
    cases c with
    | false => rw [gotoLoop_cons_false]
    | true =>
      rw [gotoLoop_cons_true]
      have hl' := selected_labels_cases dir bits b labels hl
      rw [gotoPass_replicate _ hl' b]
      exact ih (b + 1) _ hl'

theorem verify_replicate_nil (b : Nat) (h1 : 1 ≤ b) (h2 : b + 1 < UINT64_CARD) :
    verifyCounters (List.replicate 16 b) b = [] := by
  unfold verifyCounters
  apply List.filterMap_eq_nil_iff.mpr
  intro i hi
  rw [List.mem_range] at hi
  have hlo : (b + (UINT64_CARD - 1)) % UINT64_CARD = b - 1 := by
    unfold UINT64_CARD at h2 ⊢
    omega
  have hhi : (b + 1) % UINT64_CARD = b + 1 := Nat.mod_eq_of_lt h2
  simp only [hlo, hhi, replicate_getD, hi, if_pos]
  rw [if_neg]
  simp only [Bool.or_eq_true, decide_eq_true_eq, not_or]
  omega

/-- Claim C6: the cancellation check sits only at the top of each pass, so every
started pass runs to completion: whatever the direction, the random bits and
the `stress_continue` responses, when the loop exits each of the 16 sampled
counters equals the final bogo (pass) counter exactly, and (below the
`uint64_t` wrap of the verifier bounds) the ±1 tolerance band is never
needed: the verifier reports no violation. -/
theorem goto_counters_equal_passes (dir : Nat) (bits : Nat → Bool)
    (conts : List Bool) :
    (stress_goto_run dir bits conts).counters =
      List.replicate 16 (stress_goto_run dir bits conts).bogo ∧
    (1 ≤ (stress_goto_run dir bits conts).bogo ∧
        (stress_goto_run dir bits conts).bogo + 1 < UINT64_CARD →
      verifyCounters (stress_goto_run dir bits conts).counters
        (stress_goto_run dir bits conts).bogo = []) := by
  have h1 : (stress_goto_run dir bits conts).counters =
      List.replicate 16 (stress_goto_run dir bits conts).bogo :=
    gotoLoop_counters dir bits conts 0 _ (initialLabels_cases dir)
  refine ⟨h1, ?_⟩
  rintro ⟨hb1, hb2⟩
  rw [h1]
  exact verify_replicate_nil _ hb1 hb2

/-- Witness for C6 at direction forward, one completed pass. -/
theorem goto_counters_equal_passes_witness :
    verifyCounters (stress_goto_run STRESS_GOTO_FORWARD (fun _ => false)
        [true, false]).counters
      (stress_goto_run STRESS_GOTO_FORWARD (fun _ => false) [true, false]).bogo
      = [] :=
  (goto_counters_equal_passes STRESS_GOTO_FORWARD (fun _ => false)
    [true, false]).2 (by decide)

/-- Claim C2: the jump-table builder yields `forward[i] = (i+1) mod 1024` and
`backward[i] = (i+1023) mod 1024` for every index `i` in `[0,1024)`, as a
pure function of the size. -/
theorem goto_table_builder_formulas (i : Nat) (_hi : i < MAX_LABELS) :
    labels_forward i = (i + 1) % 1024 ∧ labels_backward i = (i + 1023) % 1024 := by
  constructor
  · rfl
  · show (MAX_LABELS + i - 1) % MAX_LABELS = (i + 1023) % 1024
    unfold MAX_LABELS
    omega

/-- Witness for C2 at index 70. -/
theorem goto_table_builder_formulas_witness :
    70 < MAX_LABELS ∧
      (labels_forward 70 = (70 + 1) % 1024 ∧ labels_backward 70 = (70 + 1023) % 1024) :=
  ⟨by decide, goto_table_builder_formulas 70 (by decide)⟩

/-- Claim C10: when no `goto-direction` setting is stored, the run uses
`STRESS_GOTO_RANDOM`; a stored setting overrides the default. -/
theorem goto_default_direction_random :
    effectiveDirection none = STRESS_GOTO_RANDOM ∧
      ∀ d, effectiveDirection (some d) = d :=
  ⟨rfl, fun _ => rfl⟩

/-- Claim C9: if the very first `stress_continue` poll is false the run completes
zero passes with all counters zero; the verifier lower bound
`bogo_counter - 1` wraps in `uint64_t` to `2^64 - 1`, every one of the 16
counters is reported as a violation, and the run exits with failure. -/
theorem goto_zero_passes_wrap (dir : Nat) (bits : Nat → Bool) :
    (stress_goto_run dir bits [false]).bogo = 0 ∧
    (stress_goto_run dir bits [false]).counters = List.replicate 16 0 ∧
    (0 + (UINT64_CARD - 1)) % UINT64_CARD = UINT64_CARD - 1 ∧
    verifyCounters (stress_goto_run dir bits [false]).counters
        (stress_goto_run dir bits [false]).bogo =
      (List.range 16).map (fun k => ⟨k * 64, 0, UINT64_CARD - 1, 1⟩) ∧
    runVerdict (stress_goto_run dir bits [false]).counters
      (stress_goto_run dir bits [false]).bogo = EXIT_FAILURE := by
  have hrun : stress_goto_run dir bits [false] = ⟨List.replicate 16 0, 0, []⟩ := by
    unfold stress_goto_run
    exact gotoLoop_cons_false dir bits [] (List.replicate 16 0) 0 (initialLabels dir)
  rw [hrun]
  refine ⟨rfl, rfl, by decide, by decide, by decide⟩

/-- Claim C7: the rate is `1024 * passes / duration` for positive duration and `0`
for zero duration; the emitted metric is that rate divided by one million
under the single name `"million gotos per sec"`, tagged harmonic-mean; with
10 passes in half a second the reported value is `0.02048`. -/
theorem goto_rate_spec :
    (∀ (p : Nat) (d : ℚ), 0 < d → gotoRate p d = (1024 * p) / d) ∧
    (∀ p : Nat, gotoRate p 0 = 0) ∧
    (∀ (p : Nat) (d : ℚ), gotoMetric p d =
      ⟨"million gotos per sec", gotoRate p d / 1000000, true⟩) ∧
    gotoMetric 10 (1 / 2) = ⟨"million gotos per sec", 0.02048, true⟩ := by
  refine ⟨?_, ?_, fun p d => rfl, ?_⟩
  · intro p d hd
    unfold gotoRate
    rw [if_pos hd]
  · intro p
    unfold gotoRate
    norm_num
  · unfold gotoMetric gotoRate
    rw [if_pos (by norm_num : (0 : ℚ) < 1 / 2)]
    norm_num [Metric.mk.injEq]

/-- Witness for C7 at passes 7, duration 2. -/
theorem goto_rate_spec_witness :
    (0 : ℚ) < 2 ∧ gotoRate 7 2 = (1024 * 7) / 2 :=
  ⟨by decide, goto_rate_spec.1 7 2 (by decide)⟩

/-- Claim C1: direction forward with budget of exactly 5 passes: five polls of
`stress_continue` answer true, the sixth false.  The run completes exactly 5
passes, bogo counter 5, all 16 sampled counters 5, and the sanity check
reports nothing and exits with success.  The random-bit stream is arbitrary:
it is never consulted in forward mode. -/
theorem goto_forward_five_passes (bits : Nat → Bool) :
    (stress_goto_run STRESS_GOTO_FORWARD bits
      [true, true, true, true, true, false]).bogo = 5 ∧
    (stress_goto_run STRESS_GOTO_FORWARD bits
      [true, true, true, true, true, false]).counters = List.replicate 16 5 ∧
    (stress_goto_run STRESS_GOTO_FORWARD bits
      [true, true, true, true, true, false]).tableTrace.length = 5 ∧
    verifyCounters
      (stress_goto_run STRESS_GOTO_FORWARD bits
        [true, true, true, true, true, false]).counters
      (stress_goto_run STRESS_GOTO_FORWARD bits
        [true, true, true, true, true, false]).bogo = [] ∧
    runVerdict
      (stress_goto_run STRESS_GOTO_FORWARD bits
        [true, true, true, true, true, false]).counters
      (stress_goto_run STRESS_GOTO_FORWARD bits
        [true, true, true, true, true, false]).bogo = EXIT_SUCCESS := by
  have hpassF : ∀ b : Nat,
      gotoPass labels_forward (List.replicate 16 b) = List.replicate 16 (b + 1) :=
    fun b => gotoPass_replicate _ (Or.inl rfl) b
  have hsel : ∀ b : Nat,
      (if STRESS_GOTO_FORWARD = STRESS_GOTO_RANDOM then
        (if bits b then labels_backward else labels_forward)
      else labels_forward) = labels_forward :=
    fun _ => if_neg (by decide)
  have hrun : stress_goto_run STRESS_GOTO_FORWARD bits
      [true, true, true, true, true, false] =
      ⟨List.replicate 16 5, 5,
        [labels_forward, labels_forward, labels_forward, labels_forward,
         labels_forward]⟩ := by
    unfold stress_goto_run
    rw [show initialLabels STRESS_GOTO_FORWARD = labels_forward from rfl]
    rw [gotoLoop_cons_true, hsel, hpassF]
    rw [gotoLoop_cons_true, hsel, hpassF]
    rw [gotoLoop_cons_true, hsel, hpassF]
    rw [gotoLoop_cons_true, hsel, hpassF]
    rw [gotoLoop_cons_true, hsel, hpassF]
    rw [gotoLoop_cons_false]
  rw [hrun]
  exact ⟨rfl, rfl, rfl, by decide, by decide⟩

theorem iter_forward (k : Nat) :
    ∀ s, s < 1024 → iterTable labels_forward k s = (s + k) % 1024 := by
  induction k with
  | zero =>
    intro s hs
    show s = (s + 0) % 1024
    omega
  | succ m ih =>
    intro s hs
    show iterTable labels_forward m (labels_forward s) = (s + (m + 1)) % 1024
    have hstep : labels_forward s = (s + 1) % 1024 := rfl
    rw [hstep, ih _ (Nat.mod_lt _ (by norm_num))]
    omega

theorem iter_backward (k : Nat) :
    ∀ s, s < 1024 → iterTable labels_backward k s = (s + 1023 * k) % 1024 := by
  induction k with
  | zero =>
    intro s hs
    show s = (s + 1023 * 0) % 1024
    omega
  | succ m ih =>
    intro s hs
    show iterTable labels_backward m (labels_backward s) = (s + 1023 * (m + 1)) % 1024
    have hstep : labels_backward s = (1024 + s - 1) % 1024 := rfl
    rw [hstep, ih _ (Nat.mod_lt _ (by norm_num))]
    omega

/-- Claim C3: each jump table is one 1024-cycle: from any start index the first
1024 iterates are pairwise distinct, cover every index in `[0,1024)`, and
the 1024th iterate is the start index again — for the forward table and the
backward table alike. -/
theorem goto_tables_single_cycle (s : Nat) (hs : s < 1024) :
    (tableOrbit labels_forward 1024 s).Nodup ∧
    (∀ j < 1024, j ∈ tableOrbit labels_forward 1024 s) ∧
    iterTable labels_forward 1024 s = s ∧
    (tableOrbit labels_backward 1024 s).Nodup ∧
    (∀ j < 1024, j ∈ tableOrbit labels_backward 1024 s) ∧
    iterTable labels_backward 1024 s = s := by
  refine ⟨?_, ?_, ?_, ?_, ?_, ?_⟩
  · unfold tableOrbit
    refine List.Nodup.map_on ?_ (List.nodup_range _)
    intro x hx y hy hxy
    rw [List.mem_range] at hx hy
    rw [iter_forward x s hs, iter_forward y s hs] at hxy
    omega
  · intro j hj
    unfold tableOrbit
    rw [List.mem_map]
    refine ⟨(1024 + j - s) % 1024, ?_, ?_⟩
    · rw [List.mem_range]; omega
    · rw [iter_forward _ s hs]; omega
  · rw [iter_forward 1024 s hs]; omega
  · unfold tableOrbit
    refine List.Nodup.map_on ?_ (List.nodup_range _)
    intro x hx y hy hxy
    rw [List.mem_range] at hx hy
    rw [iter_backward x s hs, iter_backward y s hs] at hxy
    omega
  · intro j hj
    unfold tableOrbit
    rw [List.mem_map]
    refine ⟨(1024 + s - j) % 1024, ?_, ?_⟩
    · rw [List.mem_range]; omega
    · rw [iter_backward _ s hs]; omega
  · rw [iter_backward 1024 s hs]; omega

/-- Witness for C3 at start index 0. -/
theorem goto_tables_single_cycle_witness :
    0 < 1024 ∧
    ((tableOrbit labels_forward 1024 0).Nodup ∧
     (∀ j < 1024, j ∈ tableOrbit labels_forward 1024 0) ∧
     iterTable labels_forward 1024 0 = 0 ∧
     (tableOrbit labels_backward 1024 0).Nodup ∧
     (∀ j < 1024, j ∈ tableOrbit labels_backward 1024 0) ∧
     iterTable labels_backward 1024 0 = 0) :=
  ⟨by decide, goto_tables_single_cycle 0 (by decide)⟩

theorem length_filterMap_ite {α β : Type} (l : List α) (p : α → Bool) (g : α → β) :
    (l.filterMap (fun a => if p a then some (g a) else none)).length =
      (l.filter p).length := by
  induction l with
  | nil => rfl
  | cons a t ih =>
    by_cases h : p a = true
    · simp [List.filterMap_cons, List.filter_cons, h, ih]
    · simp [List.filterMap_cons, List.filter_cons, h, ih]

theorem mem_verifyCounters (counters : List Nat) (passes : Nat) (k : Nat)
    (hk : k < 16) :
    ((⟨k * 64, counters.getD k 0,
        (passes + (UINT64_CARD - 1)) % UINT64_CARD,
        (passes + 1) % UINT64_CARD⟩ : Violation) ∈
        verifyCounters counters passes ↔
      (counters.getD k 0 < (passes + (UINT64_CARD - 1)) % UINT64_CARD ∨
        (passes + 1) % UINT64_CARD < counters.getD k 0)) := by
  unfold verifyCounters
  rw [List.mem_filterMap]
  constructor
  · rintro ⟨a, _, hfa⟩
    simp only [] at hfa
    split at hfa
    · next hcond =>
      rw [Option.some.injEq, Violation.mk.injEq] at hfa
      obtain ⟨ha, hobs, -, -⟩ := hfa
      have hak : a = k := by omega
      subst hak
      rw [Bool.or_eq_true, decide_eq_true_eq, decide_eq_true_eq] at hcond
      exact hcond
    · exact absurd hfa (by simp)
  · intro h
    refine ⟨k, List.mem_range.mpr hk, ?_⟩
    show (if _ then _ else _) = _
    rw [if_pos]
    rw [Bool.or_eq_true, decide_eq_true_eq, decide_eq_true_eq]
    exact h

/-- Claim C4: for `1 ≤ passes` (and below the `uint64_t` wrap of `passes + 1`) the
verifier checks each of the 16 sampled counters against the inclusive range
`[passes - 1, passes + 1]`; each out-of-range counter `k` contributes exactly
one violation record `(64k, observed, passes - 1, passes + 1)`; all of them
are collected rather than stopping at the first; the run fails exactly when
at least one violation exists; and the rate metric is emitted either way. -/
theorem goto_verifier_spec (counters : List Nat) (passes : Nat) (duration : ℚ)
    (h1 : 1 ≤ passes) (h2 : passes + 1 < UINT64_CARD) :
    (∀ k, k < 16 →
      ((⟨k * 64, counters.getD k 0, passes - 1, passes + 1⟩ : Violation) ∈
          verifyCounters counters passes ↔
        (counters.getD k 0 < passes - 1 ∨ passes + 1 < counters.getD k 0))) ∧
    (verifyCounters counters passes).length =
      ((List.range 16).filter (fun k =>
        decide (counters.getD k 0 < passes - 1) ||
        decide (passes + 1 < counters.getD k 0))).length ∧
    (runVerdict counters passes = EXIT_FAILURE ↔
      verifyCounters counters passes ≠ []) ∧
    (finishRun counters passes duration).metric = gotoMetric passes duration := by
  have hlo : (passes + (UINT64_CARD - 1)) % UINT64_CARD = passes - 1 := by
    unfold UINT64_CARD at h2 ⊢
    omega
  have hhi : (passes + 1) % UINT64_CARD = passes + 1 := Nat.mod_eq_of_lt h2
  refine ⟨?_, ?_, ?_, rfl⟩
  · intro k hk
    have := mem_verifyCounters counters passes k hk
    rw [hlo, hhi] at this
    exact this
  · unfold verifyCounters
    rw [hlo, hhi]
    exact length_filterMap_ite (List.range 16) _
      (fun i => (⟨i * 64, counters.getD i 0, passes - 1, passes + 1⟩ : Violation))
  · unfold runVerdict
    split
    · next hnil => simp [hnil, EXIT_SUCCESS, EXIT_FAILURE]
    · next hnil => simp [hnil, EXIT_FAILURE]

/-- Witness for C4: passes = 5, counters mostly 4 with one high and one low
outlier, duration 0. -/
theorem goto_verifier_spec_witness :
    (1 ≤ 5 ∧ 5 + 1 < UINT64_CARD) ∧
    ((∀ k, k < 16 →
      ((⟨k * 64, ([4, 4, 4, 4, 4, 4, 4, 9, 4, 4, 4, 4, 4, 4, 4, 0] :
            List Nat).getD k 0, 5 - 1, 5 + 1⟩ : Violation) ∈
          verifyCounters [4, 4, 4, 4, 4, 4, 4, 9, 4, 4, 4, 4, 4, 4, 4, 0] 5 ↔
        (([4, 4, 4, 4, 4, 4, 4, 9, 4, 4, 4, 4, 4, 4, 4, 0] :
            List Nat).getD k 0 < 5 - 1 ∨
          5 + 1 < ([4, 4, 4, 4, 4, 4, 4, 9, 4, 4, 4, 4, 4, 4, 4, 0] :
            List Nat).getD k 0))) ∧
    (verifyCounters [4, 4, 4, 4, 4, 4, 4, 9, 4, 4, 4, 4, 4, 4, 4, 0] 5).length =
      ((List.range 16).filter (fun k =>
        decide (([4, 4, 4, 4, 4, 4, 4, 9, 4, 4, 4, 4, 4, 4, 4, 0] :
          List Nat).getD k 0 < 5 - 1) ||
        decide (5 + 1 < ([4, 4, 4, 4, 4, 4, 4, 9, 4, 4, 4, 4, 4, 4, 4, 0] :
          List Nat).getD k 0))).length ∧
    (runVerdict [4, 4, 4, 4, 4, 4, 4, 9, 4, 4, 4, 4, 4, 4, 4, 0] 5 = EXIT_FAILURE ↔
      verifyCounters [4, 4, 4, 4, 4, 4, 4, 9, 4, 4, 4, 4, 4, 4, 4, 0] 5 ≠ []) ∧
    (finishRun [4, 4, 4, 4, 4, 4, 4, 9, 4, 4, 4, 4, 4, 4, 4, 0] 5 0).metric =
      gotoMetric 5 0) :=
  ⟨⟨by decide, by decide⟩,
    goto_verifier_spec [4, 4, 4, 4, 4, 4, 4, 9, 4, 4, 4, 4, 4, 4, 4, 0] 5 0
      (by decide) (by decide)⟩

theorem set_direction_unknown (s : String)
    (hs : s ∉ (["forward", "backward", "random"] : List String)) :
    stress_set_goto_direction s = .err ["forward", "backward", "random"] := by
  have h1 : s ≠ "forward" := by intro h; exact hs (by simp [h])
  have h2 : s ≠ "backward" := by intro h; exact hs (by simp [h])
  have h3 : s ≠ "random" := by intro h; exact hs (by simp [h])
  have hb1 : (("forward" : String) == s) = false := by simpa using Ne.symm h1
  have hb2 : (("backward" : String) == s) = false := by simpa using Ne.symm h2
  have hb3 : (("random" : String) == s) = false := by simpa using Ne.symm h3
  simp [stress_set_goto_direction, stress_goto_direction_options, List.find?,
    hb1, hb2, hb3]

/-- Claim C5: the direction option accepts exactly the case-sensitive tokens
`"forward"`, `"backward"`, `"random"`, storing the matching direction value;
any other string takes the error path whose message enumerates the three
valid tokens, and the driver never invokes the run in that case. -/
theorem goto_set_direction_spec :
    stress_set_goto_direction "forward" = .ok STRESS_GOTO_FORWARD ∧
    stress_set_goto_direction "backward" = .ok STRESS_GOTO_BACKWARD ∧
    stress_set_goto_direction "random" = .ok STRESS_GOTO_RANDOM ∧
    (∀ s : String, s ∉ (["forward", "backward", "random"] : List String) →
      stress_set_goto_direction s = .err ["forward", "backward", "random"]) ∧
    (∀ (s : String) (d : Nat), stress_set_goto_direction s = .ok d →
      (s = "forward" ∧ d = STRESS_GOTO_FORWARD) ∨
      (s = "backward" ∧ d = STRESS_GOTO_BACKWARD) ∨
      (s = "random" ∧ d = STRESS_GOTO_RANDOM)) ∧
    (∀ (s : String) (bits : Nat → Bool) (conts : List Bool),
      s ∉ (["forward", "backward", "random"] : List String) →
      driverAttempt s bits conts = none) := by
  refine ⟨by decide, by decide, by decide, set_direction_unknown, ?_, ?_⟩
  · intro s d hd
    by_cases hmem : s ∈ (["forward", "backward", "random"] : List String)
    · have hcase : s = "forward" ∨ s = "backward" ∨ s = "random" := by
        simpa using hmem
      rcases hcase with rfl | rfl | rfl
      · left
        refine ⟨rfl, ?_⟩
        have hok : stress_set_goto_direction "forward" = .ok STRESS_GOTO_FORWARD :=
          by decide
        rw [hok] at hd
        injection hd with h
        exact h.symm
      · right; left
        refine ⟨rfl, ?_⟩
        have hok : stress_set_goto_direction "backward" = .ok STRESS_GOTO_BACKWARD :=
          by decide
        rw [hok] at hd
        injection hd with h
        exact h.symm
      · right; right
        refine ⟨rfl, ?_⟩
        have hok : stress_set_goto_direction "random" = .ok STRESS_GOTO_RANDOM :=
          by decide
        rw [hok] at hd
        injection hd with h
        exact h.symm
    · rw [set_direction_unknown s hmem] at hd
      simp at hd
  · intro s bits conts hs
    unfold driverAttempt
    rw [set_direction_unknown s hs]

/-- Witness for C5 at the unknown token `"sideways"`. -/
theorem goto_set_direction_spec_witness :
    ("sideways" ∉ (["forward", "backward", "random"] : List String)) ∧
    stress_set_goto_direction "sideways" = .err ["forward", "backward", "random"] ∧
    driverAttempt "sideways" (fun _ => false) [] = none :=
  ⟨by decide,
   (goto_set_direction_spec.2.2.2.1) "sideways" (by decide),
   (goto_set_direction_spec.2.2.2.2.2) "sideways" (fun _ => false) [] (by decide)⟩

theorem gotoLoop_trace_random (bits : Nat → Bool) (conts : List Bool) :
    ∀ (cs : List Nat) (b : Nat) (labels : Nat → Nat) (p : Nat),
      p < (gotoLoop STRESS_GOTO_RANDOM bits conts cs b labels).tableTrace.length →
      (gotoLoop STRESS_GOTO_RANDOM bits conts cs b labels).tableTrace.getD p
          (fun n => n) =
        (if bits (b + p) then labels_backward else labels_forward) := by
  induction conts with
  | nil =>
    intro cs b labels p hp
    rw [gotoLoop_nil] at hp
    simp at hp
  | cons c rest ih =>
    intro cs b labels p hp
    cases c with
    | false =>
      rw [gotoLoop_cons_false] at hp
      simp at hp
    | true =>
      rw [gotoLoop_cons_true] at hp ⊢
      rw [if_pos rfl] at hp ⊢
      cases p with
      | zero =>
        rw [List.getD_cons_zero, Nat.add_zero]
      | succ q =>
        rw [List.getD_cons_succ]
        simp only [List.length_cons, Nat.succ_lt_succ_iff] at hp
        rw [ih _ (b + 1) _ q hp]
        have harg : b + 1 + q = b + (q + 1) := by omega
        rw [harg]

theorem gotoLoop_trace_fixed (dir : Nat) (hdir : dir ≠ STRESS_GOTO_RANDOM)
    (bits : Nat → Bool) (conts : List Bool) :
    ∀ (cs : List Nat) (b : Nat) (labels : Nat → Nat) (p : Nat),
      p < (gotoLoop dir bits conts cs b labels).tableTrace.length →
      (gotoLoop dir bits conts cs b labels).tableTrace.getD p (fun n => n) =
        labels := by
  induction conts with
  | nil =>
    intro cs b labels p hp
    rw [gotoLoop_nil] at hp
    simp at hp
  | cons c rest ih =>
    intro cs b labels p hp
    cases c with
    | false =>
      rw [gotoLoop_cons_false] at hp
      simp at hp
    | true =>
      rw [gotoLoop_cons_true] at hp ⊢
      rw [if_neg hdir] at hp ⊢
      cases p with
      | zero => rw [List.getD_cons_zero]
      | succ q =>
        rw [List.getD_cons_succ]
        simp only [List.length_cons, Nat.succ_lt_succ_iff] at hp
        exact ih _ (b + 1) _ q hp

/-- Claim C8: with direction random, the active table of pass `p` is re-selected
at the top of that pass from one drawn bit — the backward table when the bit
is set, the forward table otherwise — and each pass is driven by that single
table; with direction forward (resp. backward) every pass uses the forward
(resp. backward) table, unchanged for the whole run. -/
theorem goto_table_selection (bits : Nat → Bool) (conts : List Bool) :
    (∀ p, p < (stress_goto_run STRESS_GOTO_RANDOM bits conts).tableTrace.length →
      (stress_goto_run STRESS_GOTO_RANDOM bits conts).tableTrace.getD p
          (fun n => n) =
        (if bits p then labels_backward else labels_forward)) ∧
    (∀ p, p < (stress_goto_run STRESS_GOTO_FORWARD bits conts).tableTrace.length →
      (stress_goto_run STRESS_GOTO_FORWARD bits conts).tableTrace.getD p
          (fun n => n) = labels_forward) ∧
    (∀ p, p < (stress_goto_run STRESS_GOTO_BACKWARD bits conts).tableTrace.length →
      (stress_goto_run STRESS_GOTO_BACKWARD bits conts).tableTrace.getD p
          (fun n => n) = labels_backward) := by
  refine ⟨?_, ?_, ?_⟩
  · intro p hp
    unfold stress_goto_run at hp ⊢
    have := gotoLoop_trace_random bits conts (List.replicate 16 0) 0
      (initialLabels STRESS_GOTO_RANDOM) p hp
    rw [Nat.zero_add] at this
    exact this
  · intro p hp
    unfold stress_goto_run at hp ⊢
    exact gotoLoop_trace_fixed STRESS_GOTO_FORWARD (by decide) bits conts
      (List.replicate 16 0) 0 (initialLabels STRESS_GOTO_FORWARD) p hp
  · intro p hp
    unfold stress_goto_run at hp ⊢
    exact gotoLoop_trace_fixed STRESS_GOTO_BACKWARD (by decide) bits conts
      (List.replicate 16 0) 0 (initialLabels STRESS_GOTO_BACKWARD) p hp

/-- Witness for C8: a random-direction run of one pass whose drawn bit is
set uses the backward table for that pass. -/
theorem goto_table_selection_witness :
    0 < (stress_goto_run STRESS_GOTO_RANDOM (fun _ => true)
        [true, false]).tableTrace.length ∧
    (stress_goto_run STRESS_GOTO_RANDOM (fun _ => true)
        [true, false]).tableTrace.getD 0 (fun n => n) = labels_backward :=
  ⟨by decide,
   (goto_table_selection (fun _ => true) [true, false]).1 0 (by decide)⟩

end StressGoto
